import Mathlib

/-!
Shallow embedding of the unified generation adapter of this repository
(examples/ch03/models.py) and of the password validator of the persistence
example (examples/ch02/2-2-mod.py), together with theorems settling the
specification claims about them.

Python strings are modelled as lists of characters; Python str.split,
str.find, str.strip, str.startswith and substring membership are modelled
by executable functions with the same semantics (for the nonempty
separators the code uses).  Fallible code (list indexing that can raise
IndexError) returns Option.
-/

/-- Python strings, modelled as lists of characters. -/
abbrev Str := List Char

/-- Python str.strip: remove leading and trailing whitespace. -/
def pyStrip (s : Str) : Str :=
  ((s.dropWhile Char.isWhitespace).reverse.dropWhile Char.isWhitespace).reverse

/-- Python s.startswith(sub): the first argument is the string, the second the candidate
leading substring. -/
def pyStartsWith : Str → Str → Bool
  | _, [] => true
  | [], _ :: _ => false
  | b :: bs, a :: as => a == b && pyStartsWith bs as

/-- Python s.find(sub) for the success case: the index of the first occurrence of sub
in the second argument, or none when sub does not occur. -/
def strFind (sub : Str) : Str → Option Nat
  | [] => if pyStartsWith [] sub then some 0 else none
  | c :: t => if pyStartsWith (c :: t) sub then some 0 else (strFind sub t).map (· + 1)

/-- Python substring membership, as in the expression sub in s; Python documents it as
equivalent to s.find(sub) being different from -1. -/
def strContains (s sub : Str) : Bool := (strFind sub s).isSome

/-- Python s.find(sub) including the -1 convention for a missing substring. -/
def find_py (s sub : Str) : Int :=
  match strFind sub s with
  | some i => (i : Int)
  | none => -1

/-- Fuel-driven worker for pySplit; the fuel only has to dominate the length of the
string, each recursive step consumes at least one character. -/
def pySplitAux (sep : Str) : Nat → Str → List Str
  | 0, s => [s]
  | fuel + 1, s =>
    match strFind sep s with
    | none => [s]
    | some i => s.take i :: pySplitAux sep fuel (s.drop (i + sep.length))

/-- Python s.split(sep) for a nonempty separator sep (Python rejects an empty one). -/
def pySplit (sep s : Str) : List Str :=
  if sep = [] then [s] else pySplitAux sep s.length s

/-- A chat message: a role paired with free-text content.  Models the dictionaries
with keys role and content used throughout models.py. -/
structure ChatMsg where
  role : Str
  content : Str
deriving DecidableEq, Repr

/-- Delimiter tag emitted for a system message, newline included (models.py line 136). -/
def sysTag : Str := "<|system|>\n".toList

/-- Delimiter tag emitted for a user message, newline included (models.py line 138). -/
def userTag : Str := "<|user|>\n".toList

/-- Delimiter tag emitted for an assistant message, newline included (models.py line 140). -/
def asstTag : Str := "<|assistant|>\n".toList

/-- The system marker the remote parse path looks for (models.py line 73). -/
def sysMark : Str := "<|system|>".toList

/-- The user marker the remote parse path looks for (models.py line 77). -/
def userMark : Str := "<|user|>".toList

/-- Separator ending the system segment in the remote parse path (models.py line 74). -/
def nlUserMark : Str := "\n<|user|>".toList

/-- Separator ending the user segment in the remote parse path (models.py line 78). -/
def nlAsstMark : Str := "\n<|assistant|>".toList

/-- The role string system. -/
def roleSystem : Str := "system".toList

/-- The role string user. -/
def roleUser : Str := "user".toList

/-- The role string assistant. -/
def roleAssistant : Str := "assistant".toList

/-- DummyTokenizer.apply_chat_template (models.py lines 123-145): serialize a
conversation into a single delimiter-tagged string; with add_generation_prompt a
trailing assistant tag is appended.  The tokenize flag is accepted and ignored,
as in the source. -/
def apply_chat_template (messages : List ChatMsg) (tokenize : Bool)
    (add_generation_prompt : Bool) : Str :=
  let formatted_prompt :=
    messages.foldl (fun acc message =>
      if message.role = roleSystem then acc ++ sysTag ++ message.content ++ ['\n']
      else if message.role = roleUser then acc ++ userTag ++ message.content ++ ['\n']
      else if message.role = roleAssistant then acc ++ asstTag ++ message.content ++ ['\n']
      else acc) []
  let _ := tokenize
  if add_generation_prompt then formatted_prompt ++ asstTag else formatted_prompt

/-- The message-extraction step of OllamaModel.__call__ (models.py lines 69-83):
re-parse the formatted prompt into a message list by detecting the system and user
markers; none models the IndexError Python raises when an indexed split segment is
missing.  If no message was extracted, the entire prompt becomes one user message. -/
def extract_messages (prompt : Str) : Option (List ChatMsg) :=
  let messages : List ChatMsg := []
  let afterSystem : Option (List ChatMsg) :=
    if strContains prompt sysMark then
      match (pySplit sysTag prompt)[1]? with
      | none => none
      | some seg =>
        some (messages ++ [⟨roleSystem, pyStrip ((pySplit nlUserMark seg).getD 0 [])⟩])
    else some messages
  match afterSystem with
  | none => none
  | some messages1 =>
    let afterUser : Option (List ChatMsg) :=
      if strContains prompt userMark then
        match (pySplit userTag prompt)[1]? with
        | none => none
        | some seg =>
          some (messages1 ++ [⟨roleUser, pyStrip ((pySplit nlAsstMark seg).getD 0 [])⟩])
      else some messages1
    match afterUser with
    | none => none
    | some messages2 =>
      some (if messages2 = [] then [⟨roleUser, prompt⟩] else messages2)

/-- Start marker of a reasoning trace (models.py line 110). -/
def thinkOpenTag : Str := "<think>".toList

/-- End marker of a reasoning trace (models.py line 110). -/
def thinkCloseTag : Str := "</think>".toList

/-- The reasoning-trace stripping step of OllamaModel.__call__ (models.py lines
109-113): when both markers occur, keep the text before the first start marker and
the stripped text after the end of the first end marker. -/
def strip_think (generated_text : Str) : Str :=
  if strContains generated_text thinkOpenTag && strContains generated_text thinkCloseTag then
    let think_start := find_py generated_text thinkOpenTag
    let think_end := find_py generated_text thinkCloseTag + thinkCloseTag.length
    generated_text.take think_start.toNat ++ pyStrip (generated_text.drop think_end.toNat)
  else generated_text

/-- The parts of the HTTP response that OllamaModel.__call__ inspects: the status
code, the raw body text, and the nested message content of the parsed JSON body
(modelling the chain of get calls on the parse result, with empty string default). -/
structure HttpResponse where
  status_code : Nat
  text : Str
  message_content : Str

/-- Response handling of OllamaModel.__call__ (models.py lines 104-117): status 200
yields the think-stripped message content; any other status models the raised
Exception whose message is the literal Ollama API error prefix followed by the raw
response body text.  No retry: the result is a function of the single response. -/
def handle_response (response : HttpResponse) : Except Str Str :=
  if response.status_code = 200 then
    .ok (strip_think response.message_content)
  else
    .error ("Ollama API error: ".toList ++ response.text)

/-- A JSON value as stored in the request payload dictionary. -/
inductive JVal where
  | s (v : Str)
  | n (v : Int)
  | q (v : ℚ)
  | b (v : Bool)
  | msgs (v : List ChatMsg)
deriving DecidableEq, Repr

/-- Request-body construction of OllamaModel.__call__ (models.py lines 86-99): the
four mandatory keys, then each optional sampling parameter appended only when the
caller supplied it.  Python float parameters are modelled as rationals: the adapter
only stores them, no floating-point arithmetic happens. -/
def build_payload (model_name : Str) (messages : List ChatMsg) (temperature : ℚ)
    (max_new_tokens : Option Int) (top_p : Option ℚ) (top_k : Option Int) :
    List (String × JVal) :=
  let payload : List (String × JVal) :=
    [("model", .s model_name), ("messages", .msgs messages),
     ("temperature", .q temperature), ("stream", .b false)]
  let payload := match max_new_tokens with
    | some v => payload ++ [("max_tokens", .n v)]
    | none => payload
  let payload := match top_p with
    | some v => payload ++ [("top_p", .q v)]
    | none => payload
  match top_k with
  | some v => payload ++ [("top_k", .n v)]
  | none => payload

/-- OllamaModel.__call__ assembled from its steps (models.py lines 52-117), given the
response of the single POST request: extraction of the messages from the prompt,
payload construction, then response handling; none models a Python IndexError during
extraction (the do_sample parameter is accepted and ignored, as in the source). -/
def ollama_call (model_name prompt : Str) (temperature : ℚ) (max_new_tokens : Option Int)
    (top_k : Option Int) (top_p : Option ℚ) (response : HttpResponse) :
    Option (List (String × JVal) × Except Str Str) :=
  match extract_messages prompt with
  | none => none
  | some messages =>
    some (build_payload model_name messages temperature max_new_tokens top_p top_k,
          handle_response response)

/-- The result of load_text_model: either the OllamaModel wrapper with its model name
and base url, or the local HuggingFace pipeline with its task and model name (no
network request is part of the constructor data). -/
inductive LoadedModel where
  | ollamaModel (model_name : Str) (base_url : Str)
  | hfPipeline (task : Str) (model_name : Str)
deriving DecidableEq, Repr

/-- The remote-backend marker of load_text_model (models.py line 29). -/
def ollamaMarker : Str := "ollama:".toList

/-- Default base url of OllamaModel (models.py line 47). -/
def defaultBaseUrl : Str := "http://localhost:11434".toList

/-- load_text_model (models.py lines 18-41): a model name starting with the ollama
marker routes to the OllamaModel wrapper whose name is element 1 of splitting the
identifier on the marker; otherwise the local text-generation pipeline is built with
the full identifier. -/
def load_text_model (model_name : Str) : LoadedModel :=
  if pyStartsWith model_name ollamaMarker then
    let ollama_model_name := (pySplit ollamaMarker model_name).getD 1 []
    .ollamaModel ollama_model_name defaultBaseUrl
  else
    .hfPipeline "text-generation".toList model_name

/-- Error message of the password length rule (2-2-mod.py line 37). -/
def msgLen : Str := "Password must be at least 8 characters long".toList

/-- Error message of the password digit rule (2-2-mod.py line 39). -/
def msgDigit : Str := "Password must contain at least one digit".toList

/-- Error message of the password uppercase rule (2-2-mod.py line 41). -/
def msgUpper : Str := "Password must contain at least one uppercase letter".toList

/-- UserCreate.validate_password (2-2-mod.py lines 34-42): the three complexity rules
checked in order, error carrying the message of the first failed rule, otherwise the
value returned unchanged. -/
def validate_password (value : Str) : Except Str Str :=
  if value.length < 8 then .error msgLen
  else if ¬ (value.any Char.isDigit) then .error msgDigit
  else if ¬ (value.any Char.isUpper) then .error msgUpper
  else .ok value

/-- The module-level system prompt of models.py (lines 9-13). -/
def system_prompt : Str :=
  "\nYour name is FastAPI bot and you are a helpful\nchatbot responsible for teaching FastAPI to your users.\nAlways respond in markdown.\n".toList

/-- The end-of-assistant-turn boundary the local path splits the echo on
(models.py line 186). -/
def endAsstBoundary : Str := "</s>\n<|assistant|>\n".toList

/-- generate_text on the local-pipeline path (models.py lines 148-188): the pipeline
invocation is modelled as a function from the formatted prompt and the sampling
parameters (temperature, max_new_tokens, do_sample, top_k, top_p) to either an error
of the local runtime or the generated_text of its first prediction.  The adapter
formats the conversation, invokes the pipeline once, propagates its error unchanged,
and on success keeps the last segment after the end-of-assistant boundary. -/
def generate_text_local {ε : Type} (callPipe : Str → ℚ → Nat → Bool → Nat → ℚ → Except ε Str)
    (prompt : Str) (temperature : ℚ) : Except ε Str :=
  let messages : List ChatMsg := [⟨roleSystem, system_prompt⟩, ⟨roleUser, prompt⟩]
  let formatted_prompt := apply_chat_template messages false true
  match callPipe formatted_prompt temperature 256 true 50 (19 / 20) with
  | .error e => .error e
  | .ok generated => .ok ((pySplit endAsstBoundary generated).getLastD [])

/-- The index holds the first occurrence: characterization of strFind. -/
def FirstOccur (sub s : Str) (i : Nat) : Prop :=
  pyStartsWith (s.drop i) sub = true ∧ ∀ j, j < i → pyStartsWith (s.drop j) sub = false

/-- A first occurrence is decidable, so concrete instances evaluate. -/
instance (sub s : Str) (i : Nat) : Decidable (FirstOccur sub s i) := by
  unfold FirstOccur
  infer_instance

/-! ### Properties of the Python string primitives -/

/-- A string extended on the right starts with itself. -/
theorem pyStartsWith_append_self (x r : Str) : pyStartsWith (x ++ r) x = true := by
  induction x with
  | nil => simp [pyStartsWith]
  | cons c cs ih => simp [pyStartsWith, ih]

/-- Every string starts with itself. -/
theorem pyStartsWith_self (x : Str) : pyStartsWith x x = true := by
  simpa using pyStartsWith_append_self x []

/-- Characterization of pyStartsWith by decomposition of the string. -/
theorem pyStartsWith_iff_append (s sub : Str) :
    pyStartsWith s sub = true ↔ ∃ r, s = sub ++ r := by
  induction sub generalizing s with
  | nil =>
    constructor
    · intro _; exact ⟨s, rfl⟩
    · intro _; cases s <;> rfl
  | cons a as ih =>
    cases s with
    | nil =>
      constructor
      · intro h; simp [pyStartsWith] at h
      · rintro ⟨r, hr⟩; simp at hr
    | cons b bs =>
      constructor
      · intro h
        simp only [pyStartsWith, Bool.and_eq_true, beq_iff_eq] at h
        obtain ⟨r, hr⟩ := (ih bs).mp h.2
        exact ⟨r, by simp [h.1, hr]⟩
      · rintro ⟨r, hr⟩
        simp only [List.cons_append, List.cons.injEq] at hr
        simp only [pyStartsWith, Bool.and_eq_true, beq_iff_eq]
        exact ⟨hr.1.symm, (ih bs).mpr ⟨r, hr.2⟩⟩

/-- A nonempty substring is not found in the empty string. -/
theorem strFind_nil_of_ne (sub : Str) (h : sub ≠ []) : strFind sub [] = none := by
  cases sub with
  | nil => exact absurd rfl h
  | cons a as => rfl

/-- When the string starts with the substring, the first occurrence is at index 0. -/
theorem strFind_eq_zero_of_starts (sub s : Str) (h : pyStartsWith s sub = true) :
    strFind sub s = some 0 := by
  cases s with
  | nil => simp [strFind, h]
  | cons c t => simp [strFind, h]

/-- When the string does not start with the substring, finding skips the head. -/
theorem strFind_cons_of_not (sub : Str) (c : Char) (t : Str)
    (h : pyStartsWith (c :: t) sub = false) :
    strFind sub (c :: t) = (strFind sub t).map (· + 1) := by
  simp [strFind, h]

/-- Finding a substring whose first character does not occur in a left segment shifts
past that segment. -/
theorem strFind_shift_head (h₀ : Char) (rest a b : Str) (ha : h₀ ∉ a) :
    strFind (h₀ :: rest) (a ++ b) = (strFind (h₀ :: rest) b).map (· + a.length) := by
  induction a with
  | nil => cases h : strFind (h₀ :: rest) b <;> simp [h]
  | cons c a' ih =>
    have hc : h₀ ≠ c := fun h => ha (by rw [h]; exact List.mem_cons_self c a')
    have hbeq : (h₀ == c) = false := beq_eq_false_iff_ne.mpr hc
    have hpre : pyStartsWith (c :: (a' ++ b)) (h₀ :: rest) = false := by
      simp [pyStartsWith, hbeq]
    rw [List.cons_append, strFind_cons_of_not _ _ _ hpre,
      ih (fun hm => ha (List.mem_cons_of_mem c hm))]
    cases strFind (h₀ :: rest) b <;> simp
    omega

/-- Finding a substring whose second character neither occurs in a left segment nor
starts the right part shifts past that segment. -/
theorem strFind_shift_two (h₀ h₁ : Char) (rest a b : Str) (ha : h₁ ∉ a)
    (hb : b.head? ≠ some h₁) :
    strFind (h₀ :: h₁ :: rest) (a ++ b) = (strFind (h₀ :: h₁ :: rest) b).map (· + a.length) := by
  induction a with
  | nil => cases h : strFind (h₀ :: h₁ :: rest) b <;> simp [h]
  | cons c a' ih =>
    have hpre : pyStartsWith (c :: (a' ++ b)) (h₀ :: h₁ :: rest) = false := by
      cases a' with
      | nil =>
        cases b with
        | nil => simp [pyStartsWith]
        | cons x bs =>
          have hx : (h₁ == x) = false := by
            refine beq_eq_false_iff_ne.mpr ?_
            intro h
            exact hb (by simp [h])
          simp [pyStartsWith, hx]
      | cons c' a'' =>
        have hc' : (h₁ == c') = false := by
          refine beq_eq_false_iff_ne.mpr ?_
          intro h
          apply ha
          rw [h]
          exact List.mem_cons_of_mem c (List.mem_cons_self c' a'')
        simp [pyStartsWith, hc']
    rw [List.cons_append, strFind_cons_of_not _ _ _ hpre,
      ih (fun hm => ha (List.mem_cons_of_mem c hm))]
    cases strFind (h₀ :: h₁ :: rest) b <;> simp
    omega

/-- An occurrence of a substring fits inside the string. -/
theorem strFind_some_le (sub s : Str) (i : Nat) (h : strFind sub s = some i) :
    i + sub.length ≤ s.length := by
  induction s generalizing i with
  | nil =>
    cases sub with
    | nil =>
      have : i = 0 := by simpa [strFind, pyStartsWith] using h.symm
      simp [this]
    | cons a as => simp [strFind, pyStartsWith] at h
  | cons c t ih =>
    by_cases hp : pyStartsWith (c :: t) sub = true
    · rw [strFind_eq_zero_of_starts _ _ hp] at h
      have hi : i = 0 := by simpa using h.symm
      subst hi
      obtain ⟨r, hr⟩ := (pyStartsWith_iff_append _ _).mp hp
      rw [hr]
      simp
    · have hp' : pyStartsWith (c :: t) sub = false := by simpa using hp
      rw [strFind_cons_of_not _ _ _ hp'] at h
      cases hf : strFind sub t with
      | none => rw [hf] at h; simp at h
      | some j =>
        rw [hf] at h
        simp at h
        have := ih j hf
        simp only [List.length_cons]
        omega

/-- The fuel of pySplitAux is irrelevant once it dominates the string length. -/
theorem pySplitAux_fuel (sep : Str) (hsep : sep ≠ []) :
    ∀ f₁ f₂ s, s.length ≤ f₁ → s.length ≤ f₂ → pySplitAux sep f₁ s = pySplitAux sep f₂ s := by
  intro f₁
  induction f₁ with
  | zero =>
    intro f₂ s h₁ h₂
    have hs : s = [] := List.length_eq_zero.mp (Nat.le_zero.mp h₁)
    subst hs
    cases f₂ with
    | zero => rfl
    | succ n => simp [pySplitAux, strFind_nil_of_ne sep hsep]
  | succ m ih =>
    intro f₂ s h₁ h₂
    cases f₂ with
    | zero =>
      have hs : s = [] := List.length_eq_zero.mp (Nat.le_zero.mp h₂)
      subst hs
      simp [pySplitAux, strFind_nil_of_ne sep hsep]
    | succ n =>
      cases hf : strFind sep s with
      | none => simp [pySplitAux, hf]
      | some i =>
        have hle := strFind_some_le sep s i hf
        have hpos : 0 < sep.length := List.length_pos.mpr hsep
        simp only [pySplitAux, hf]
        congr 1
        apply ih
        · simp only [List.length_drop]; omega
        · simp only [List.length_drop]; omega

/-- Unfolding pySplit when the separator does not occur. -/
theorem pySplit_eq_of_none (sep s : Str) (hsep : sep ≠ []) (h : strFind sep s = none) :
    pySplit sep s = [s] := by
  unfold pySplit
  rw [if_neg hsep]
  cases hl : s.length with
  | zero => rfl
  | succ n => simp [pySplitAux, h]

/-- Unfolding pySplit at the first occurrence of the separator. -/
theorem pySplit_eq_of_some (sep s : Str) (i : Nat) (hsep : sep ≠ []) (h : strFind sep s = some i) :
    pySplit sep s = s.take i :: pySplit sep (s.drop (i + sep.length)) := by
  have hle := strFind_some_le sep s i h
  have hpos : 0 < sep.length := List.length_pos.mpr hsep
  unfold pySplit
  rw [if_neg hsep, if_neg hsep]
  cases hl : s.length with
  | zero =>
    exfalso
    omega
  | succ n =>
    simp only [pySplitAux, h]
    congr 1
    apply pySplitAux_fuel sep hsep
    · simp only [List.length_drop]; omega
    · rfl

/-- strFind computes exactly the first occurrence. -/
theorem strFind_eq_some_iff (sub s : Str) (i : Nat) :
    strFind sub s = some i ↔ FirstOccur sub s i := by
  induction s generalizing i with
  | nil =>
    by_cases h : pyStartsWith [] sub = true
    · constructor
      · intro hf
        have hi : i = 0 := by
          rw [strFind_eq_zero_of_starts _ _ h] at hf
          simpa using hf.symm
        subst hi
        exact ⟨by simpa using h, fun j hj => absurd hj (Nat.not_lt_zero j)⟩
      · rintro ⟨h1, h2⟩
        have hi : i = 0 := by
          by_contra hne
          have h0 := h2 0 (Nat.pos_of_ne_zero hne)
          simp only [List.drop_nil] at h0
          rw [h] at h0
          exact Bool.true_eq_false.mp h0
        subst hi
        exact strFind_eq_zero_of_starts _ _ h
    · have h' : pyStartsWith [] sub = false := by simpa using h
      constructor
      · intro hf
        cases sub with
        | nil => simp [pyStartsWith] at h'
        | cons a as => rw [strFind_nil_of_ne _ (by simp)] at hf; exact absurd hf (by simp)
      · rintro ⟨h1, _⟩
        simp only [List.drop_nil] at h1
        rw [h'] at h1
        exact absurd h1 (by simp)
  | cons c t ih =>
    by_cases hp : pyStartsWith (c :: t) sub = true
    · rw [strFind_eq_zero_of_starts _ _ hp]
      constructor
      · intro hf
        have hi : i = 0 := by simpa using hf.symm
        subst hi
        exact ⟨by simpa using hp, fun j hj => absurd hj (Nat.not_lt_zero j)⟩
      · rintro ⟨h1, h2⟩
        have hi : i = 0 := by
          by_contra hne
          have h0 := h2 0 (Nat.pos_of_ne_zero hne)
          simp only [List.drop_zero] at h0
          rw [hp] at h0
          exact Bool.true_eq_false.mp h0
        subst hi
        rfl
    · have hp' : pyStartsWith (c :: t) sub = false := by simpa using hp
      rw [strFind_cons_of_not _ _ _ hp']
      constructor
      · intro hf
        obtain ⟨j, hj, rfl⟩ : ∃ j, strFind sub t = some j ∧ j + 1 = i := by
          cases hft : strFind sub t with
          | none => rw [hft] at hf; exact absurd hf (by simp)
          | some j => rw [hft] at hf; exact ⟨j, rfl, by simpa using hf⟩
        obtain ⟨hj1, hj2⟩ := (ih j).mp hj
        refine ⟨by simpa [List.drop_succ_cons] using hj1, ?_⟩
        intro k hk
        cases k with
        | zero => simpa using hp'
        | succ k' => simpa [List.drop_succ_cons] using hj2 k' (by omega)
      · rintro ⟨h1, h2⟩
        cases i with
        | zero =>
          simp only [List.drop_zero] at h1
          rw [hp'] at h1
          exact absurd h1 (by simp)
        | succ i' =>
          have hfo : FirstOccur sub t i' := by
            refine ⟨by simpa [List.drop_succ_cons] using h1, ?_⟩
            intro k hk
            simpa [List.drop_succ_cons] using h2 (k + 1) (by omega)
          rw [(ih i').mpr hfo]
          rfl

/-- An occurrence anywhere makes strFind succeed. -/
theorem strFind_isSome_of_occur (sub s : Str) (j : Nat)
    (hj : pyStartsWith (s.drop j) sub = true) : (strFind sub s).isSome = true := by
  induction s generalizing j with
  | nil =>
    simp only [List.drop_nil] at hj
    cases sub with
    | nil => simp [strFind, pyStartsWith]
    | cons a as => simp [pyStartsWith] at hj
  | cons c t ih =>
    by_cases hp : pyStartsWith (c :: t) sub = true
    · rw [strFind_eq_zero_of_starts _ _ hp]; rfl
    · have hp' : pyStartsWith (c :: t) sub = false := by simpa using hp
      rw [strFind_cons_of_not _ _ _ hp']
      cases j with
      | zero =>
        simp only [List.drop_zero] at hj
        rw [hp'] at hj
        exact absurd hj (by simp)
      | succ j' =>
        have := ih j' (by simpa [List.drop_succ_cons] using hj)
        cases hx : strFind sub t with
        | none => rw [hx] at this; exact absurd this (by simp)
        | some v => simp [hx]

/-- strFind misses exactly when no position is an occurrence. -/
theorem strFind_eq_none_iff (sub s : Str) :
    strFind sub s = none ↔ ∀ j, pyStartsWith (s.drop j) sub = false := by
  constructor
  · intro h j
    cases hb : pyStartsWith (s.drop j) sub
    · rfl
    · have := strFind_isSome_of_occur sub s j hb
      rw [h] at this
      exact absurd this (by simp)
  · intro h
    cases hf : strFind sub s with
    | none => rfl
    | some i =>
      have := ((strFind_eq_some_iff sub s i).mp hf).1
      rw [h i] at this
      exact absurd this (by simp)

/-- A substring found at some index is contained. -/
theorem strContains_of_find (s sub : Str) (i : Nat) (h : strFind sub s = some i) :
    strContains s sub = true := by simp [strContains, h]

/-- Containment fails exactly when strFind misses. -/
theorem strContains_eq_false_iff (s sub : Str) :
    strContains s sub = false ↔ strFind sub s = none := by
  unfold strContains
  cases strFind sub s <;> simp

/-- The right part of a concatenation is contained in it. -/
theorem strContains_append_right (x y : Str) : strContains (x ++ y) y = true := by
  cases h : strFind y (x ++ y) with
  | some i => simp [strContains, h]
  | none =>
    have h0 := (strFind_eq_none_iff y (x ++ y)).mp h x.length
    rw [List.drop_left, pyStartsWith_self] at h0
    exact absurd h0 (by simp)

/-- Character-list form of sysTag. -/
theorem sysTag_chars : sysTag = ['<', '|', 's', 'y', 's', 't', 'e', 'm', '|', '>', '\n'] := rfl

/-- Character-list form of userTag. -/
theorem userTag_chars : userTag = ['<', '|', 'u', 's', 'e', 'r', '|', '>', '\n'] := rfl

/-- Character-list form of asstTag. -/
theorem asstTag_chars :
    asstTag = ['<', '|', 'a', 's', 's', 'i', 's', 't', 'a', 'n', 't', '|', '>', '\n'] := rfl

/-- Character-list form of sysMark. -/
theorem sysMark_chars : sysMark = ['<', '|', 's', 'y', 's', 't', 'e', 'm', '|', '>'] := rfl

/-- Character-list form of userMark. -/
theorem userMark_chars : userMark = ['<', '|', 'u', 's', 'e', 'r', '|', '>'] := rfl

/-- Character-list form of nlUserMark. -/
theorem nlUserMark_chars : nlUserMark = ['\n', '<', '|', 'u', 's', 'e', 'r', '|', '>'] := rfl

/-- Character-list form of nlAsstMark. -/
theorem nlAsstMark_chars :
    nlAsstMark = ['\n', '<', '|', 'a', 's', 's', 'i', 's', 't', 'a', 'n', 't', '|', '>'] := rfl

/-- Character-list form of thinkOpenTag. -/
theorem thinkOpenTag_chars : thinkOpenTag = ['<', 't', 'h', 'i', 'n', 'k', '>'] := rfl

/-- Character-list form of thinkCloseTag. -/
theorem thinkCloseTag_chars : thinkCloseTag = ['<', '/', 't', 'h', 'i', 'n', 'k', '>'] := rfl

/-- Character-list form of ollamaMarker. -/
theorem ollamaMarker_chars : ollamaMarker = ['o', 'l', 'l', 'a', 'm', 'a', ':'] := rfl

/-! ### Claim theorems -/

/-- C3: for every generated text that contains the reasoning start marker but not the
end marker, or the end marker but not the start marker, the stripping step returns
the text unchanged. -/
theorem strip_think_unmatched_noop (t : Str)
    (h : (strContains t thinkOpenTag = true ∧ strContains t thinkCloseTag = false) ∨
      (strContains t thinkCloseTag = true ∧ strContains t thinkOpenTag = false)) :
    strip_think t = t := by
  rcases h with ⟨h1, h2⟩ | ⟨h1, h2⟩ <;> simp [strip_think, h1, h2]

/-- Witness for C3 at a concrete text containing only the start marker. -/
theorem strip_think_unmatched_noop_witness :
    strip_think "x<think>y".toList = "x<think>y".toList :=
  strip_think_unmatched_noop _ (Or.inl ⟨by decide, by decide⟩)

/-- C5: for every non-200 status the remote dispatch yields the error carrying the
raw response body as payload, with no retry (the handler is a function of the single
response); the body text is contained in the error payload. -/
theorem remote_error_carries_body (response : HttpResponse)
    (h : response.status_code ≠ 200) :
    handle_response response = .error ("Ollama API error: ".toList ++ response.text) ∧
      strContains ("Ollama API error: ".toList ++ response.text) response.text = true := by
  refine ⟨?_, strContains_append_right _ _⟩
  simp [handle_response, h]

/-- Witness for C5: a 500 response with body model not found raises an error whose
payload contains that body. -/
theorem remote_error_carries_body_witness :
    handle_response ⟨500, "model not found".toList, []⟩ =
        .error ("Ollama API error: ".toList ++ "model not found".toList) ∧
      strContains ("Ollama API error: ".toList ++ "model not found".toList)
        "model not found".toList = true :=
  remote_error_carries_body ⟨500, "model not found".toList, []⟩ (by decide)

/-- C6: in every remote request body, each optional sampling parameter left unset is
absent as a key, each supplied one is present with the supplied value, and the
model, messages, temperature and stream false entries are always present. -/
theorem payload_optional_keys (model_name : Str) (messages : List ChatMsg)
    (temperature : ℚ) (max_new_tokens : Option Int) (top_p : Option ℚ)
    (top_k : Option Int) :
    (max_new_tokens = none → "max_tokens" ∉
      (build_payload model_name messages temperature max_new_tokens top_p top_k).map
        Prod.fst) ∧
    (top_p = none → "top_p" ∉
      (build_payload model_name messages temperature max_new_tokens top_p top_k).map
        Prod.fst) ∧
    (top_k = none → "top_k" ∉
      (build_payload model_name messages temperature max_new_tokens top_p top_k).map
        Prod.fst) ∧
    (∀ v, max_new_tokens = some v → ("max_tokens", JVal.n v) ∈
      build_payload model_name messages temperature max_new_tokens top_p top_k) ∧
    (∀ v, top_p = some v → ("top_p", JVal.q v) ∈
      build_payload model_name messages temperature max_new_tokens top_p top_k) ∧
    (∀ v, top_k = some v → ("top_k", JVal.n v) ∈
      build_payload model_name messages temperature max_new_tokens top_p top_k) ∧
    ("model", JVal.s model_name) ∈
      build_payload model_name messages temperature max_new_tokens top_p top_k ∧
    ("messages", JVal.msgs messages) ∈
      build_payload model_name messages temperature max_new_tokens top_p top_k ∧
    ("temperature", JVal.q temperature) ∈
      build_payload model_name messages temperature max_new_tokens top_p top_k ∧
    ("stream", JVal.b false) ∈
      build_payload model_name messages temperature max_new_tokens top_p top_k := by
  rcases max_new_tokens with _ | mv <;> rcases top_p with _ | pv <;>
    rcases top_k with _ | kv <;> simp [build_payload]

/-- Witness for C6 at concrete arguments with a mix of supplied and unset optional
parameters. -/
theorem payload_optional_keys_witness :
    (("max_tokens", JVal.n 256) ∈
      build_payload "qwen".toList [] (7 / 10) (some 256) none (some 50)) ∧
    ("top_p" ∉
      (build_payload "qwen".toList [] (7 / 10) (some 256) none (some 50)).map Prod.fst) ∧
    ("stream", JVal.b false) ∈
      build_payload "qwen".toList [] (7 / 10) (some 256) none (some 50) := by
  have h := payload_optional_keys "qwen".toList [] (7 / 10) (some 256) none (some 50)
  exact ⟨h.2.2.2.1 256 rfl, h.2.1 rfl, h.2.2.2.2.2.2.2.2.2⟩

/-- C7: on the local-pipeline path, any failure raised by the single pipeline
invocation (the failure the specification names GenerationError) surfaces to the
caller unchanged, with no retry. -/
theorem local_pipeline_error_propagates {ε : Type}
    (callPipe : Str → ℚ → Nat → Bool → Nat → ℚ → Except ε Str) (prompt : Str)
    (temperature : ℚ) (e : ε)
    (h : callPipe
        (apply_chat_template [⟨roleSystem, system_prompt⟩, ⟨roleUser, prompt⟩] false true)
        temperature 256 true 50 (19 / 20) = .error e) :
    generate_text_local callPipe prompt temperature = .error e := by
  simp [generate_text_local, h]

/-- Witness for C7 with a pipeline invocation that fails with a designated error
value. -/
theorem local_pipeline_error_propagates_witness :
    generate_text_local (fun _ _ _ _ _ _ => (.error 7 : Except Nat Str)) "hi".toList
      (7 / 10) = .error 7 :=
  local_pipeline_error_propagates _ _ _ _ rfl

/-- C8: the password validator accepts the password unchanged exactly when it has at
least 8 characters, a digit and an uppercase letter; otherwise it fails with the
message of the first violated rule, the rules being checked in the order length,
digit, uppercase. -/
theorem validate_password_rules (value : Str) :
    (validate_password value = .ok value ↔
      8 ≤ value.length ∧ value.any Char.isDigit = true ∧ value.any Char.isUpper = true) ∧
    (value.length < 8 → validate_password value = .error msgLen) ∧
    (8 ≤ value.length → value.any Char.isDigit = false →
      validate_password value = .error msgDigit) ∧
    (8 ≤ value.length → value.any Char.isDigit = true → value.any Char.isUpper = false →
      validate_password value = .error msgUpper) := by
  unfold validate_password
  split_ifs with h1 h2 h3 <;> simp_all [msgLen, msgDigit, msgUpper]

/-- Witness for C8 at a short password, where the length rule fires first. -/
theorem validate_password_rules_witness :
    validate_password "abc".toList = .error msgLen :=
  (validate_password_rules "abc".toList).2.1 (by decide)

/-- C9: a formatted prompt containing neither the system nor the user marker is sent
as a message list holding exactly one user message whose content is the whole prompt;
and every message list produced by the extraction step is nonempty. -/
theorem no_marker_prompt_single_user_message (prompt : Str)
    (h1 : strContains prompt sysMark = false) (h2 : strContains prompt userMark = false) :
    extract_messages prompt = some [⟨roleUser, prompt⟩] ∧
      ∀ q msgs, extract_messages q = some msgs → msgs ≠ [] := by
  constructor
  · simp [extract_messages, h1, h2]
  · intro q msgs hq
    simp only [extract_messages] at hq
    split at hq
    · exact absurd hq (by simp)
    · split at hq
      · exact absurd hq (by simp)
      · replace hq := Option.some.inj hq
        subst hq
        split
        · simp
        · next hne => exact hne

/-- Witness for C9 at a prompt without markers. -/
theorem no_marker_prompt_single_user_message_witness :
    extract_messages "hello".toList = some [⟨roleUser, "hello".toList⟩] :=
  (no_marker_prompt_single_user_message "hello".toList (by decide) (by decide)).1

/-- C4 as stated fails: when the remote marker reoccurs inside the remainder, the
remote model name is the segment up to the second occurrence, not the full remainder
after the leading marker. -/
theorem load_text_model_not_full_remainder :
    load_text_model "ollama:ollama:m".toList ≠
      LoadedModel.ollamaModel ("ollama:ollama:m".toList.drop ollamaMarker.length)
        defaultBaseUrl := by decide

/-- C4 amended: an identifier starting with the remote marker routes to the remote
backend, with remote model name the segment between the first and second occurrence
of the marker, hence the full remainder whenever the marker does not reoccur there;
an identifier without the leading marker routes to the local pipeline with the full
identifier as model name and involves no request. -/
theorem load_text_model_routing (model_name : Str) :
    (pyStartsWith model_name ollamaMarker = true →
      strContains (model_name.drop ollamaMarker.length) ollamaMarker = false →
      load_text_model model_name =
        LoadedModel.ollamaModel (model_name.drop ollamaMarker.length) defaultBaseUrl) ∧
    (pyStartsWith model_name ollamaMarker = false →
      load_text_model model_name =
        LoadedModel.hfPipeline "text-generation".toList model_name) := by
  constructor
  · intro h1 h2
    obtain ⟨r, rfl⟩ := (pyStartsWith_iff_append _ _).mp h1
    rw [List.drop_left] at h2 ⊢
    have hfind : strFind ollamaMarker (ollamaMarker ++ r) = some 0 :=
      strFind_eq_zero_of_starts _ _ (pyStartsWith_append_self _ _)
    have hnone : strFind ollamaMarker r = none := (strContains_eq_false_iff _ _).mp h2
    unfold load_text_model
    rw [if_pos h1, pySplit_eq_of_some _ _ 0 (by decide) hfind]
    rw [show (ollamaMarker ++ r).drop (0 + ollamaMarker.length) = r by
      simp [List.drop_left]]
    rw [pySplit_eq_of_none _ _ (by decide) hnone]
    simp
  · intro h1
    unfold load_text_model
    rw [if_neg (by simp [h1])]

/-- Witness for C4 amended at a typical remote identifier and a local identifier. -/
theorem load_text_model_routing_witness :
    load_text_model "ollama:qwen3:0.6b".toList =
        LoadedModel.ollamaModel ("ollama:qwen3:0.6b".toList.drop ollamaMarker.length)
          defaultBaseUrl ∧
      load_text_model "gpt2".toList =
        LoadedModel.hfPipeline "text-generation".toList "gpt2".toList :=
  ⟨(load_text_model_routing "ollama:qwen3:0.6b".toList).1 (by decide) (by decide),
    (load_text_model_routing "gpt2".toList).2 (by decide)⟩

/-- Helper: when both markers occur, stripping computes the text before the first
start marker followed by the trimmed text after the end of the first end marker. -/
theorem strip_think_first_span (t : Str) (i j : Nat)
    (hi : FirstOccur thinkOpenTag t i) (hj : FirstOccur thinkCloseTag t j) :
    strip_think t = t.take i ++ pyStrip (t.drop (j + thinkCloseTag.length)) := by
  have hfi : strFind thinkOpenTag t = some i := (strFind_eq_some_iff _ _ _).mpr hi
  have hfj : strFind thinkCloseTag t = some j := (strFind_eq_some_iff _ _ _).mpr hj
  have hc1 : strContains t thinkOpenTag = true := strContains_of_find _ _ _ hfi
  have hc2 : strContains t thinkCloseTag = true := strContains_of_find _ _ _ hfj
  simp only [strip_think, find_py, hc1, hc2, hfi, hfj, Bool.and_self, if_true,
    Int.toNat_natCast]
  have e2 : ((j : Int) + (thinkCloseTag.length : Int)).toNat = j + thinkCloseTag.length := by
    omega
  rw [e2]

/-- Helper: stripping a string holding a full marker pair only trims the leading
whitespace before the pair and the trailing whitespace after it; the pair and the
span between its markers survive verbatim. -/
theorem pyStrip_around_pair (x y z : Str) :
    pyStrip (x ++ (thinkOpenTag ++ (y ++ (thinkCloseTag ++ z)))) =
      x.dropWhile Char.isWhitespace ++ (thinkOpenTag ++ (y ++ (thinkCloseTag ++
        (z.reverse.dropWhile Char.isWhitespace).reverse))) := by
  unfold pyStrip
  have h1 : (x ++ (thinkOpenTag ++ (y ++ (thinkCloseTag ++ z)))).dropWhile
      Char.isWhitespace =
      x.dropWhile Char.isWhitespace ++ (thinkOpenTag ++ (y ++ (thinkCloseTag ++ z))) := by
    rw [List.dropWhile_append]
    split
    · next h =>
      rw [List.isEmpty_iff] at h
      rw [h, List.nil_append, thinkOpenTag_chars]
      exact List.dropWhile_cons_of_neg (by decide)
    · rfl
  rw [h1]
  have h2 : (x.dropWhile Char.isWhitespace ++
        (thinkOpenTag ++ (y ++ (thinkCloseTag ++ z)))).reverse =
      z.reverse ++ (thinkCloseTag.reverse ++ (y.reverse ++ (thinkOpenTag.reverse ++
        (x.dropWhile Char.isWhitespace).reverse))) := by
    simp [List.reverse_append]
  rw [h2]
  have h3 : (z.reverse ++ (thinkCloseTag.reverse ++ (y.reverse ++ (thinkOpenTag.reverse ++
        (x.dropWhile Char.isWhitespace).reverse)))).dropWhile Char.isWhitespace =
      z.reverse.dropWhile Char.isWhitespace ++ (thinkCloseTag.reverse ++ (y.reverse ++
        (thinkOpenTag.reverse ++ (x.dropWhile Char.isWhitespace).reverse))) := by
    rw [List.dropWhile_append]
    split
    · next h =>
      rw [List.isEmpty_iff] at h
      rw [h, List.nil_append]
      rw [show thinkCloseTag.reverse = ['>', 'k', 'n', 'i', 'h', 't', '/', '<'] from by
        decide]
      exact List.dropWhile_cons_of_neg (by decide)
    · rfl
  rw [h3]
  simp [List.reverse_append]

/-- C2: when the generated text contains both reasoning markers, with the first start
marker before the first end marker, stripping returns the text before the start
marker concatenated with the whitespace-trimmed text after the end marker: exactly
the markers and everything between them disappear. -/
theorem strip_think_removes_first_marked_span (t : Str) (i j : Nat)
    (hi : FirstOccur thinkOpenTag t i) (hj : FirstOccur thinkCloseTag t j)
    (hij : i < j) :
    strip_think t = t.take i ++ pyStrip (t.drop (j + thinkCloseTag.length)) :=
  strip_think_first_span t i j hi hj

/-- Witness for C2 at a concrete text with one reasoning span. -/
theorem strip_think_removes_first_marked_span_witness :
    strip_think "a<think>b</think> c".toList =
      "a<think>b</think> c".toList.take 1 ++
        pyStrip ("a<think>b</think> c".toList.drop (9 + thinkCloseTag.length)) :=
  strip_think_removes_first_marked_span _ 1 9 (by decide) (by decide) (by decide)

/-- C10: for every generated text whose first start marker precedes its first end
marker and whose remainder after that end marker still holds a later marker pair,
stripping removes only the span from the first start marker through the first end
marker: the text before the first start marker is kept, and the later pair together
with the span between its markers survives verbatim, only the whitespace at the two
ends of the remainder being trimmed. -/
theorem strip_think_keeps_later_pairs (t : Str) (i j : Nat) (x y z : Str)
    (hi : FirstOccur thinkOpenTag t i) (hj : FirstOccur thinkCloseTag t j)
    (hij : i < j)
    (htail : t.drop (j + thinkCloseTag.length) =
      x ++ (thinkOpenTag ++ (y ++ (thinkCloseTag ++ z)))) :
    strip_think t =
      t.take i ++ (x.dropWhile Char.isWhitespace ++ (thinkOpenTag ++ (y ++
        (thinkCloseTag ++ (z.reverse.dropWhile Char.isWhitespace).reverse)))) := by
  rw [strip_think_first_span t i j hi hj, htail, pyStrip_around_pair]

/-- Witness for C10 at a two-pair text with a stray tag-opening character inside the
first reasoning span. -/
theorem strip_think_keeps_later_pairs_witness :
    strip_think "A<think>x<y</think>Z<think>w</think>".toList =
      "A<think>x<y</think>Z<think>w</think>".toList.take 1 ++
        ("Z".toList.dropWhile Char.isWhitespace ++ (thinkOpenTag ++ ("w".toList ++
          (thinkCloseTag ++ ("".toList.reverse.dropWhile Char.isWhitespace).reverse)))) :=
  strip_think_keeps_later_pairs _ 1 11 "Z".toList "w".toList "".toList
    (by decide) (by decide) (by decide) (by decide)

/-- A string that starts with the substring contains it. -/
theorem strContains_of_starts (s sub : Str) (h : pyStartsWith s sub = true) :
    strContains s sub = true :=
  strContains_of_find _ _ _ (strFind_eq_zero_of_starts _ _ h)

/-- Serialization of a system message followed by a user message, with generation
prompt. -/
theorem apply_chat_template_system_user (s u : Str) :
    apply_chat_template [⟨roleSystem, s⟩, ⟨roleUser, u⟩] false true =
      sysTag ++ (s ++ ('\n' :: (userTag ++ (u ++ ('\n' :: asstTag))))) := by
  have h1 : roleUser ≠ roleSystem := by decide
  simp [apply_chat_template, h1, List.append_assoc]

/-- Serialization of a single user message, with generation prompt. -/
theorem apply_chat_template_user (u : Str) :
    apply_chat_template [⟨roleUser, u⟩] false true =
      userTag ++ (u ++ ('\n' :: asstTag)) := by
  have h1 : roleUser ≠ roleSystem := by decide
  simp [apply_chat_template, h1, List.append_assoc]

/-- The system tag does not reoccur after the leading one in a clean formatted
prompt. -/
theorem strFind_sysTag_rest_none (s u : Str) (hs : '<' ∉ s) (hu : '<' ∉ u) :
    strFind sysTag (s ++ ('\n' :: (userTag ++ (u ++ ('\n' :: asstTag))))) = none := by
  rw [sysTag_chars, userTag_chars]
  rw [strFind_shift_head '<' _ s _ hs]
  rw [strFind_cons_of_not _ _ _ (by simp [pyStartsWith])]
  rw [List.cons_append]
  rw [strFind_cons_of_not _ _ _ (by simp [pyStartsWith])]
  rw [strFind_shift_head '<' _ ['|', 'u', 's', 'e', 'r', '|', '>', '\n'] _ (by decide)]
  rw [strFind_shift_head '<' _ u _ hu]
  rw [show strFind (['<', '|', 's', 'y', 's', 't', 'e', 'm', '|', '>', '\n'] : Str)
    ('\n' :: asstTag) = none from by decide]
  rfl

/-- The first occurrence of the system-segment separator in the remainder of a clean
formatted prompt sits right after the system content. -/
theorem strFind_nlUserMark_rest (s u : Str) (hs : '<' ∉ s) :
    strFind nlUserMark (s ++ ('\n' :: (userTag ++ (u ++ ('\n' :: asstTag))))) =
      some s.length := by
  rw [nlUserMark_chars]
  rw [strFind_shift_two '\n' '<' _ s _ hs (by simp)]
  rw [show ('\n' :: (userTag ++ (u ++ ('\n' :: asstTag)))) =
    (['\n', '<', '|', 'u', 's', 'e', 'r', '|', '>'] : Str) ++ ('\n' :: (u ++ ('\n' :: asstTag)))
    from rfl]
  rw [strFind_eq_zero_of_starts _ _ (pyStartsWith_append_self _ _)]
  simp

/-- The first occurrence of the user tag in a clean two-message formatted prompt. -/
theorem strFind_userTag_prompt (s u : Str) (hs : '<' ∉ s) :
    strFind userTag (sysTag ++ (s ++ ('\n' :: (userTag ++ (u ++ ('\n' :: asstTag)))))) =
      some (s.length + 12) := by
  rw [userTag_chars, sysTag_chars]
  rw [List.cons_append]
  rw [strFind_cons_of_not _ _ _ (by simp [pyStartsWith])]
  rw [strFind_shift_head '<' _ ['|', 's', 'y', 's', 't', 'e', 'm', '|', '>', '\n'] _
    (by decide)]
  rw [strFind_shift_head '<' _ s _ hs]
  rw [strFind_cons_of_not _ _ _ (by simp [pyStartsWith])]
  rw [strFind_eq_zero_of_starts _ _ (pyStartsWith_append_self _ _)]
  simp
  omega

/-- The user tag does not occur after the user content of a clean formatted prompt. -/
theorem strFind_userTag_tail_none (u : Str) (hu : '<' ∉ u) :
    strFind userTag (u ++ ('\n' :: asstTag)) = none := by
  rw [userTag_chars]
  rw [strFind_shift_head '<' _ u _ hu]
  rw [show strFind (['<', '|', 'u', 's', 'e', 'r', '|', '>', '\n'] : Str)
    ('\n' :: asstTag) = none from by decide]
  rfl

/-- The first occurrence of the user-segment separator after the user content. -/
theorem strFind_nlAsstMark_tail (u : Str) (hu : '<' ∉ u) :
    strFind nlAsstMark (u ++ ('\n' :: asstTag)) = some u.length := by
  rw [nlAsstMark_chars]
  rw [strFind_shift_two '\n' '<' _ u _ hu (by simp)]
  rw [show strFind (['\n', '<', '|', 'a', 's', 's', 'i', 's', 't', 'a', 'n', 't', '|', '>'] : Str)
    ('\n' :: asstTag) = some 0 from by decide]
  simp

/-- The system marker does not occur in a clean single-user formatted prompt. -/
theorem strFind_sysMark_userPrompt (u : Str) (hu : '<' ∉ u) :
    strFind sysMark (userTag ++ (u ++ ('\n' :: asstTag))) = none := by
  rw [sysMark_chars, userTag_chars]
  rw [List.cons_append]
  rw [strFind_cons_of_not _ _ _ (by simp [pyStartsWith])]
  rw [strFind_shift_head '<' _ ['|', 'u', 's', 'e', 'r', '|', '>', '\n'] _ (by decide)]
  rw [strFind_shift_head '<' _ u _ hu]
  rw [show strFind (['<', '|', 's', 'y', 's', 't', 'e', 'm', '|', '>'] : Str)
    ('\n' :: asstTag) = none from by decide]
  rfl

/-- C1 amended: a conversation made of one system message followed by one user
message, or of a single user message, with contents free of the tag-opening
character and already whitespace-trimmed, survives the serialize-then-reparse round
trip of the remote path with the same role order and contents. -/
theorem roundtrip_system_user_conversations (s u : Str) (hs : '<' ∉ s) (hu : '<' ∉ u)
    (hss : pyStrip s = s) (hsu : pyStrip u = u) :
    extract_messages (apply_chat_template [⟨roleSystem, s⟩, ⟨roleUser, u⟩] false true) =
        some [⟨roleSystem, s⟩, ⟨roleUser, u⟩] ∧
      extract_messages (apply_chat_template [⟨roleUser, u⟩] false true) =
        some [⟨roleUser, u⟩] := by
  constructor
  · rw [apply_chat_template_system_user]
    have hA : strContains
        (sysTag ++ (s ++ ('\n' :: (userTag ++ (u ++ ('\n' :: asstTag)))))) sysMark = true :=
      strContains_of_starts _ _ (pyStartsWith_append_self sysMark _)
    have hFsys : strFind sysTag
        (sysTag ++ (s ++ ('\n' :: (userTag ++ (u ++ ('\n' :: asstTag)))))) = some 0 :=
      strFind_eq_zero_of_starts _ _ (pyStartsWith_append_self _ _)
    have hSplitSys : pySplit sysTag
        (sysTag ++ (s ++ ('\n' :: (userTag ++ (u ++ ('\n' :: asstTag)))))) =
        [[], s ++ ('\n' :: (userTag ++ (u ++ ('\n' :: asstTag))))] := by
      rw [pySplit_eq_of_some _ _ 0 (by decide) hFsys]
      rw [show (sysTag ++ (s ++ ('\n' :: (userTag ++ (u ++ ('\n' :: asstTag)))))).drop
          (0 + sysTag.length) = s ++ ('\n' :: (userTag ++ (u ++ ('\n' :: asstTag)))) from by
        simp [List.drop_left]]
      rw [pySplit_eq_of_none _ _ (by decide) (strFind_sysTag_rest_none s u hs hu)]
      simp
    have hSysSeg : ((pySplit nlUserMark
        (s ++ ('\n' :: (userTag ++ (u ++ ('\n' :: asstTag))))))[0]?).getD [] = s := by
      rw [pySplit_eq_of_some _ _ s.length (by decide) (strFind_nlUserMark_rest s u hs)]
      simp [List.take_left]
    have hdropP2 : (sysTag ++ (s ++ ('\n' :: (userTag ++ (u ++ ('\n' :: asstTag)))))).drop
        (s.length + 12) = userTag ++ (u ++ ('\n' :: asstTag)) := by
      rw [show sysTag ++ (s ++ ('\n' :: (userTag ++ (u ++ ('\n' :: asstTag))))) =
          (sysTag ++ (s ++ ['\n'])) ++ (userTag ++ (u ++ ('\n' :: asstTag))) from by
        simp [List.append_assoc]]
      apply List.drop_left'
      rw [sysTag_chars]
      simp
    have hD : strContains
        (sysTag ++ (s ++ ('\n' :: (userTag ++ (u ++ ('\n' :: asstTag)))))) userMark = true := by
      have hocc : pyStartsWith
          ((sysTag ++ (s ++ ('\n' :: (userTag ++ (u ++ ('\n' :: asstTag)))))).drop
            (s.length + 12)) userMark = true := by
        rw [hdropP2]
        exact pyStartsWith_append_self userMark _
      have hsome := strFind_isSome_of_occur _ _ _ hocc
      simpa [strContains] using hsome
    have hSplitUser : (pySplit userTag
        (sysTag ++ (s ++ ('\n' :: (userTag ++ (u ++ ('\n' :: asstTag)))))))[1]? =
        some (u ++ ('\n' :: asstTag)) := by
      rw [pySplit_eq_of_some _ _ (s.length + 12) (by decide) (strFind_userTag_prompt s u hs)]
      rw [show (sysTag ++ (s ++ ('\n' :: (userTag ++ (u ++ ('\n' :: asstTag)))))).drop
          (s.length + 12 + userTag.length) = u ++ ('\n' :: asstTag) from by
        rw [show sysTag ++ (s ++ ('\n' :: (userTag ++ (u ++ ('\n' :: asstTag))))) =
            ((sysTag ++ (s ++ ['\n'])) ++ userTag) ++ (u ++ ('\n' :: asstTag)) from by
          simp [List.append_assoc]]
        apply List.drop_left'
        rw [sysTag_chars]
        simp
        omega]
      rw [pySplit_eq_of_none _ _ (by decide) (strFind_userTag_tail_none u hu)]
      simp
    have hUserSeg : ((pySplit nlAsstMark (u ++ ('\n' :: asstTag)))[0]?).getD [] = u := by
      rw [pySplit_eq_of_some _ _ u.length (by decide) (strFind_nlAsstMark_tail u hu)]
      simp [List.take_left]
    simp [extract_messages, hA, hD, hSplitSys, hSplitUser, hSysSeg, hUserSeg, hss, hsu]
  · rw [apply_chat_template_user]
    have hA1 : strContains (userTag ++ (u ++ ('\n' :: asstTag))) sysMark = false :=
      (strContains_eq_false_iff _ _).mpr (strFind_sysMark_userPrompt u hu)
    have hB1 : strContains (userTag ++ (u ++ ('\n' :: asstTag))) userMark = true :=
      strContains_of_starts _ _ (pyStartsWith_append_self userMark _)
    have hF1 : strFind userTag (userTag ++ (u ++ ('\n' :: asstTag))) = some 0 :=
      strFind_eq_zero_of_starts _ _ (pyStartsWith_append_self _ _)
    have hSplit1 : (pySplit userTag (userTag ++ (u ++ ('\n' :: asstTag))))[1]? =
        some (u ++ ('\n' :: asstTag)) := by
      rw [pySplit_eq_of_some _ _ 0 (by decide) hF1]
      rw [show (userTag ++ (u ++ ('\n' :: asstTag))).drop (0 + userTag.length) =
          u ++ ('\n' :: asstTag) from by simp [List.drop_left]]
      rw [pySplit_eq_of_none _ _ (by decide) (strFind_userTag_tail_none u hu)]
      simp
    have hUserSeg1 : ((pySplit nlAsstMark (u ++ ('\n' :: asstTag)))[0]?).getD [] = u := by
      rw [pySplit_eq_of_some _ _ u.length (by decide) (strFind_nlAsstMark_tail u hu)]
      simp [List.take_left]
    simp [extract_messages, hA1, hB1, hSplit1, hUserSeg1, hsu]

/-- C1 as stated fails: a conversation consisting of one assistant message, all roles
being in the allowed set, does not survive the serialize-then-reparse round trip. -/
theorem roundtrip_fails_on_assistant_message :
    extract_messages (apply_chat_template [⟨roleAssistant, "hi".toList⟩] false true) ≠
      some [⟨roleAssistant, "hi".toList⟩] := by decide

/-- Witness for C1 amended at a concrete system-and-user conversation. -/
theorem roundtrip_system_user_conversations_witness :
    extract_messages (apply_chat_template
        [⟨roleSystem, "You are helpful".toList⟩, ⟨roleUser, "hi".toList⟩] false true) =
        some [⟨roleSystem, "You are helpful".toList⟩, ⟨roleUser, "hi".toList⟩] ∧
      extract_messages (apply_chat_template [⟨roleUser, "hi".toList⟩] false true) =
        some [⟨roleUser, "hi".toList⟩] :=
  roundtrip_system_user_conversations _ _ (by decide) (by decide) (by decide) (by decide)
